import Mathlib

/-!
Verification of the `requests-client` request/retry pipeline and the
cursor-fetch pagination iterator, as a shallow embedding of
`requests_client/client.py`, `requests_client/cursor_fetch.py` and
`requests_client/exceptions.py`.

Python integers are modelled as `Int` (or `Nat` for counters that are only
ever incremented from zero), Python `None`-or-value arguments as `Option`,
Python exceptions as explicit result constructors, and mutation as explicit
state passing.  `float('inf')` limits (produced from `None` arguments in
`CursorFetchIterator.__init__`) are modelled as `Option Nat` with `none`
standing for infinity, together with comparison helpers mirroring how
Python comparisons against `float('inf')` behave.
-/

namespace RequestsClient

/-! ### `check_http_status` (client.py lines 27-35)

`expected` is either an `int` or a (possibly nested) tuple/list of such
specs; any other value raises `ValueError`, so the well-typed inputs are
exactly the values of `HttpExpected`. -/

inductive HttpExpected where
  | int (n : Int)
  | list (l : List HttpExpected)
deriving Repr

/-- `check_http_status(status, expected)`: a list matches if any member
matches; an integer below 10 is a wildcard for the whole hundred-range
(`0 <= status - expected * 100 < 100`); otherwise exact equality. -/
def check_http_status (status : Int) : HttpExpected → Bool
  | .int e =>
      if e < 10 then
        decide (0 ≤ status - e * 100) && decide (status - e * 100 < 100)
      else
        decide (status = e)
  | .list [] => false
  | .list (x :: xs) => check_http_status status x || check_http_status status (.list xs)

/-- The status-compatibility rule as the specification words it: an exact
integer at least 10, a wildcard-hundred integer below 10, or a collection
matched memberwise. -/
def matchesSpec (status : Int) : HttpExpected → Prop
  | .int e =>
      (10 ≤ e ∧ status = e) ∨ (e < 10 ∧ e * 100 ≤ status ∧ status < e * 100 + 100)
  | .list [] => False
  | .list (x :: xs) => matchesSpec status x ∨ matchesSpec status (.list xs)

theorem check_http_status_int (status e : Int) :
    check_http_status status (.int e) = true ↔ matchesSpec status (.int e) := by
  simp only [check_http_status, matchesSpec]
  by_cases h : e < 10
  · simp only [if_pos h, Bool.and_eq_true, decide_eq_true_eq]
    constructor
    · rintro ⟨h1, h2⟩
      exact Or.inr ⟨h, by omega, by omega⟩
    · rintro (⟨h10, _⟩ | ⟨_, h1, h2⟩)
      · omega
      · exact ⟨by omega, by omega⟩
  · simp only [if_neg h, decide_eq_true_eq]
    constructor
    · intro he
      exact Or.inl ⟨by omega, he⟩
    · rintro (⟨_, he⟩ | ⟨hlt, _, _⟩)
      · exact he
      · omega

theorem check_http_status_iff (status : Int) :
    (e : HttpExpected) → (check_http_status status e = true ↔ matchesSpec status e)
  | .int n => check_http_status_int status n
  | .list [] => by simp [check_http_status, matchesSpec]
  | .list (x :: xs) => by
      have h1 := check_http_status_iff status x
      have h2 := check_http_status_iff status (.list xs)
      simp only [check_http_status, matchesSpec, Bool.or_eq_true]
      rw [h1, h2]

theorem check_http_status_list_mem (status : Int) (l : List HttpExpected) :
    check_http_status status (.list l) = true ↔
      ∃ x ∈ l, check_http_status status x = true := by
  induction l with
  | nil => simp [check_http_status]
  | cons x xs ih =>
      simp only [check_http_status, Bool.or_eq_true, ih, List.mem_cons]
      constructor
      · rintro (h | ⟨y, hy, hm⟩)
        · exact ⟨x, Or.inl rfl, h⟩
        · exact ⟨y, Or.inr hy, hm⟩
      · rintro ⟨y, (rfl | hy), hm⟩
        · exact Or.inl hm
        · exact Or.inr ⟨y, hy, hm⟩

/-- C3: `check_http_status(status, expected)` returns True iff `expected` is
an integer at least 10 equal to `status`, or an integer below 10 with
`expected*100 <= status < expected*100 + 100`, or a list/tuple some member of
which matches under the same rule; in particular `matches(200,2)`,
`matches(299,2)`, `not matches(300,2)`, `matches(404,[200,404])`,
`not matches(401,[200,404])`. -/
theorem c3_check_http_status_correct :
    (∀ (status : Int) (e : HttpExpected),
        check_http_status status e = true ↔ matchesSpec status e) ∧
    (∀ (status : Int) (l : List HttpExpected),
        check_http_status status (.list l) = true ↔
          ∃ x ∈ l, check_http_status status x = true) ∧
    check_http_status 200 (.int 2) = true ∧
    check_http_status 299 (.int 2) = true ∧
    check_http_status 300 (.int 2) = false ∧
    check_http_status 404 (.list [.int 200, .int 404]) = true ∧
    check_http_status 401 (.list [.int 200, .int 404]) = false :=
  ⟨check_http_status_iff, check_http_status_list_mem,
   by simp [check_http_status], by simp [check_http_status],
   by simp [check_http_status], by simp [check_http_status],
   by simp [check_http_status]⟩

/-! ### Error taxonomy and the `BaseClient.request` retry loop
(client.py lines 245-301, exceptions.py)

One execution of the wrapped `_request` operation is modelled by an
`Outcome`: it either returns a value or raises one of the exception classes
the loop distinguishes.  `RatelimitError` is a subclass of `TemporaryError`
and is caught by the earlier `except RatelimitError` clause, so the two are
disjoint constructors here.  A whole operation is a script (list) of
outcomes, one entry per execution; `request` consumes the script and
returns the loop's result together with the number of executions performed,
or `none` when the script is too short (the loop would keep retrying). -/

inductive Outcome where
  | ok (v : Nat)
  | retry (retry_ident : String) (result : Nat) (retry_count : Nat) (wait_seconds : Nat)
  | ratelimit (id : Nat) (wait_seconds : Option Nat)
  | temporary (id : Nat) (wait_seconds : Option Nat)
  | other (id : Nat)
deriving Repr, DecidableEq

/-- What a `RetryExceeded` wraps: the `Retry.result` payload in the
explicit-retry branch, the original exception object in the
ratelimit/temporary branches. -/
inductive Wrapped where
  | result (r : Nat)
  | exc (e : Outcome)
deriving Repr, DecidableEq

inductive ReqResult where
  | ok (v : Nat)
  | retryExceeded (wrapped : Wrapped) (retry_ident : Option String) (retry_count : Nat)
  | raised (e : Outcome)
deriving Repr, DecidableEq

structure RetryConfig where
  ratelimit_retries : Nat
  temporary_error_retries : Nat
deriving Repr, DecidableEq

/-- The `while True` loop of `BaseClient.request`, with the loop-local
counters (`ratelimit_retries`, `temporary_error_retries`, `ident_retries`)
as explicit arguments.  `ident_retries` is total with default 0, matching
`setdefault(ident, 0)`.  The inner `self.error_processor(exc)` call runs
with an empty processor list and is a no-op, so it is not modelled. -/
def requestGo (cfg : RetryConfig) :
    List Outcome → Nat → Nat → (String → Nat) → Option (ReqResult × Nat)
  | [], _, _, _ => none
  | o :: rest, rl, tmp, idents =>
    match o with
    | .ok v => some (.ok v, 1)
    | .retry ident result count _wait =>
        let c := idents ident + 1
        if c ≤ count then
          (requestGo cfg rest rl tmp (fun i => if i = ident then c else idents i)).map
            (fun p => (p.1, p.2 + 1))
        else
          some (.retryExceeded (.result result) (some ident) count, 1)
    | .ratelimit id w =>
        let c := rl + 1
        if c ≤ cfg.ratelimit_retries then
          (requestGo cfg rest c tmp idents).map (fun p => (p.1, p.2 + 1))
        else if c - 1 ≠ 0 then
          some (.retryExceeded (.exc (.ratelimit id w)) none (c - 1), 1)
        else
          some (.raised (.ratelimit id w), 1)
    | .temporary id w =>
        let c := tmp + 1
        if c ≤ cfg.temporary_error_retries then
          (requestGo cfg rest rl c idents).map (fun p => (p.1, p.2 + 1))
        else if c - 1 ≠ 0 then
          some (.retryExceeded (.exc (.temporary id w)) none (c - 1), 1)
        else
          some (.raised (.temporary id w), 1)
    | .other id => some (.raised (.other id), 1)

/-- `BaseClient.request`: all retry counters start at zero on each
top-level call. -/
def request (cfg : RetryConfig) (script : List Outcome) : Option (ReqResult × Nat) :=
  requestGo cfg script 0 0 (fun _ => 0)


theorem requestGo_cons_retry (cfg : RetryConfig) (ident : String)
    (result count wait : Nat) (rest : List Outcome) (rl tmp : Nat)
    (idents : String → Nat) :
    requestGo cfg (.retry ident result count wait :: rest) rl tmp idents =
      if idents ident + 1 ≤ count then
        (requestGo cfg rest rl tmp
          (fun i => if i = ident then idents ident + 1 else idents i)).map
            (fun p => (p.1, p.2 + 1))
      else
        some (.retryExceeded (.result result) (some ident) count, 1) := rfl

theorem requestGo_cons_ratelimit (cfg : RetryConfig) (id : Nat) (w : Option Nat)
    (rest : List Outcome) (rl tmp : Nat) (idents : String → Nat) :
    requestGo cfg (.ratelimit id w :: rest) rl tmp idents =
      if rl + 1 ≤ cfg.ratelimit_retries then
        (requestGo cfg rest (rl + 1) tmp idents).map (fun p => (p.1, p.2 + 1))
      else if rl + 1 - 1 ≠ 0 then
        some (.retryExceeded (.exc (.ratelimit id w)) none (rl + 1 - 1), 1)
      else
        some (.raised (.ratelimit id w), 1) := rfl

theorem requestGo_cons_temporary (cfg : RetryConfig) (id : Nat) (w : Option Nat)
    (rest : List Outcome) (rl tmp : Nat) (idents : String → Nat) :
    requestGo cfg (.temporary id w :: rest) rl tmp idents =
      if tmp + 1 ≤ cfg.temporary_error_retries then
        (requestGo cfg rest rl (tmp + 1) idents).map (fun p => (p.1, p.2 + 1))
      else if tmp + 1 - 1 ≠ 0 then
        some (.retryExceeded (.exc (.temporary id w)) none (tmp + 1 - 1), 1)
      else
        some (.raised (.temporary id w), 1) := rfl

theorem requestGo_retry_exceeded (cfg : RetryConfig) (ident : String)
    (result N wait : Nat) :
    ∀ (m rl tmp : Nat) (idents : String → Nat), idents ident + m = N →
      requestGo cfg (List.replicate (m + 1) (.retry ident result N wait)) rl tmp idents =
        some (.retryExceeded (.result result) (some ident) N, m + 1) := by
  intro m
  induction m with
  | zero =>
      intro rl tmp idents h
      rw [List.replicate_one, requestGo_cons_retry, if_neg (by omega)]
  | succ k ih =>
      intro rl tmp idents h
      rw [List.replicate_succ, requestGo_cons_retry, if_pos (by omega)]
      rw [ih rl tmp _ (by rw [if_pos rfl]; omega)]
      rfl

theorem requestGo_retry_looping (cfg : RetryConfig) (ident : String)
    (result N wait : Nat) :
    ∀ (m rl tmp : Nat) (idents : String → Nat), idents ident + m ≤ N →
      requestGo cfg (List.replicate m (.retry ident result N wait)) rl tmp idents =
        none := by
  intro m
  induction m with
  | zero => intro rl tmp idents h; rfl
  | succ k ih =>
      intro rl tmp idents h
      rw [List.replicate_succ, requestGo_cons_retry, if_pos (by omega)]
      rw [ih rl tmp _ (by rw [if_pos rfl]; omega)]
      rfl

theorem requestGo_ratelimit_exceeded (cfg : RetryConfig) (id : Nat) (w : Option Nat)
    (hpos : 1 ≤ cfg.ratelimit_retries) :
    ∀ (m rl tmp : Nat) (idents : String → Nat), rl + m = cfg.ratelimit_retries →
      requestGo cfg (List.replicate (m + 1) (.ratelimit id w)) rl tmp idents =
        some (.retryExceeded (.exc (.ratelimit id w)) none cfg.ratelimit_retries,
              m + 1) := by
  intro m
  induction m with
  | zero =>
      intro rl tmp idents h
      rw [List.replicate_one, requestGo_cons_ratelimit, if_neg (by omega),
          if_pos (by omega)]
      have : rl + 1 - 1 = cfg.ratelimit_retries := by omega
      rw [this]
  | succ k ih =>
      intro rl tmp idents h
      rw [List.replicate_succ, requestGo_cons_ratelimit, if_pos (by omega)]
      rw [ih (rl + 1) tmp idents (by omega)]
      rfl

theorem requestGo_ratelimit_looping (cfg : RetryConfig) (id : Nat) (w : Option Nat) :
    ∀ (m rl tmp : Nat) (idents : String → Nat), rl + m ≤ cfg.ratelimit_retries →
      requestGo cfg (List.replicate m (.ratelimit id w)) rl tmp idents = none := by
  intro m
  induction m with
  | zero => intro rl tmp idents h; rfl
  | succ k ih =>
      intro rl tmp idents h
      rw [List.replicate_succ, requestGo_cons_ratelimit, if_pos (by omega)]
      rw [ih (rl + 1) tmp idents (by omega)]
      rfl

theorem requestGo_temporary_exceeded (cfg : RetryConfig) (id : Nat) (w : Option Nat)
    (hpos : 1 ≤ cfg.temporary_error_retries) :
    ∀ (m rl tmp : Nat) (idents : String → Nat), tmp + m = cfg.temporary_error_retries →
      requestGo cfg (List.replicate (m + 1) (.temporary id w)) rl tmp idents =
        some (.retryExceeded (.exc (.temporary id w)) none cfg.temporary_error_retries,
              m + 1) := by
  intro m
  induction m with
  | zero =>
      intro rl tmp idents h
      rw [List.replicate_one, requestGo_cons_temporary, if_neg (by omega),
          if_pos (by omega)]
      have : tmp + 1 - 1 = cfg.temporary_error_retries := by omega
      rw [this]
  | succ k ih =>
      intro rl tmp idents h
      rw [List.replicate_succ, requestGo_cons_temporary, if_pos (by omega)]
      rw [ih rl (tmp + 1) idents (by omega)]
      rfl

theorem requestGo_temporary_looping (cfg : RetryConfig) (id : Nat) (w : Option Nat) :
    ∀ (m rl tmp : Nat) (idents : String → Nat), tmp + m ≤ cfg.temporary_error_retries →
      requestGo cfg (List.replicate m (.temporary id w)) rl tmp idents = none := by
  intro m
  induction m with
  | zero => intro rl tmp idents h; rfl
  | succ k ih =>
      intro rl tmp idents h
      rw [List.replicate_succ, requestGo_cons_temporary, if_pos (by omega)]
      rw [ih rl (tmp + 1) idents (by omega)]
      rfl

/-- C1: for each retry class the loop handles (an explicit `Retry` with
budget `N`, or a ratelimit/temporary error with configured budget `N >= 1`),
an operation that raises that same error on every execution is executed
exactly `N + 1` times (`N` executions do not yet terminate the loop) and the
loop then raises `RetryExceeded` with `retry_count = N`. -/
theorem c1_retry_budget_n_plus_1 (cfg : RetryConfig) (ident : String)
    (result N wait idR idT : Nat) (wR wT : Option Nat) :
    (request cfg (List.replicate (N + 1) (.retry ident result N wait)) =
        some (.retryExceeded (.result result) (some ident) N, N + 1) ∧
      request cfg (List.replicate N (.retry ident result N wait)) = none) ∧
    (1 ≤ cfg.ratelimit_retries →
      request cfg (List.replicate (cfg.ratelimit_retries + 1) (.ratelimit idR wR)) =
          some (.retryExceeded (.exc (.ratelimit idR wR)) none cfg.ratelimit_retries,
                cfg.ratelimit_retries + 1) ∧
        request cfg (List.replicate cfg.ratelimit_retries (.ratelimit idR wR)) = none) ∧
    (1 ≤ cfg.temporary_error_retries →
      request cfg (List.replicate (cfg.temporary_error_retries + 1) (.temporary idT wT)) =
          some (.retryExceeded (.exc (.temporary idT wT)) none cfg.temporary_error_retries,
                cfg.temporary_error_retries + 1) ∧
        request cfg (List.replicate cfg.temporary_error_retries (.temporary idT wT)) =
          none) := by
  refine ⟨⟨?_, ?_⟩, fun h => ⟨?_, ?_⟩, fun h => ⟨?_, ?_⟩⟩
  · exact requestGo_retry_exceeded cfg ident result N wait N 0 0 _ (by omega)
  · exact requestGo_retry_looping cfg ident result N wait N 0 0 _ (by omega)
  · exact requestGo_ratelimit_exceeded cfg idR wR h cfg.ratelimit_retries 0 0 _ (by omega)
  · exact requestGo_ratelimit_looping cfg idR wR cfg.ratelimit_retries 0 0 _ (by omega)
  · exact requestGo_temporary_exceeded cfg idT wT h cfg.temporary_error_retries 0 0 _
      (by omega)
  · exact requestGo_temporary_looping cfg idT wT cfg.temporary_error_retries 0 0 _
      (by omega)

theorem c1_witness :
    (request ⟨2, 2⟩ (List.replicate 3 (.retry "a" 5 2 0)) =
        some (.retryExceeded (.result 5) (some "a") 2, 3)) ∧
    (request ⟨2, 2⟩ (List.replicate 3 (.ratelimit 7 none)) =
        some (.retryExceeded (.exc (.ratelimit 7 none)) none 2, 3)) ∧
    (request ⟨2, 2⟩ (List.replicate 3 (.temporary 8 (some 5))) =
        some (.retryExceeded (.exc (.temporary 8 (some 5))) none 2, 3)) := by
  have h := c1_retry_budget_n_plus_1 ⟨2, 2⟩ "a" 5 2 0 7 8 none (some 5)
  exact ⟨h.1.1, (h.2.1 (by decide)).1, (h.2.2 (by decide)).1⟩

/-- C2: with an effective retry budget of zero, a ratelimit (resp. temporary)
error is executed exactly once and re-raised as the original exception
object, not wrapped in `RetryExceeded`. -/
theorem c2_zero_retries_reraise_original (cfg : RetryConfig) (idR idT : Nat)
    (wR wT : Option Nat) :
    (cfg.ratelimit_retries = 0 →
      request cfg [.ratelimit idR wR] = some (.raised (.ratelimit idR wR), 1)) ∧
    (cfg.temporary_error_retries = 0 →
      request cfg [.temporary idT wT] = some (.raised (.temporary idT wT), 1)) := by
  constructor
  · intro h
    unfold request
    rw [requestGo_cons_ratelimit, if_neg (by omega), if_neg (by omega)]
  · intro h
    unfold request
    rw [requestGo_cons_temporary, if_neg (by omega), if_neg (by omega)]

theorem c2_witness :
    request ⟨0, 0⟩ [.ratelimit 3 none] = some (.raised (.ratelimit 3 none), 1) ∧
    request ⟨0, 0⟩ [.temporary 4 (some 2)] = some (.raised (.temporary 4 (some 2)), 1) := by
  have h := c2_zero_retries_reraise_original ⟨0, 0⟩ 3 4 none (some 2)
  exact ⟨h.1 rfl, h.2 rfl⟩

/-! For C6, an interleaving of `Retry` raises with two idents is written as a
list of booleans (`true` = a raise with ident `A`, `false` = one with ident
`B`). -/

def mkAB (A B : String) (rA nA wA rB nB wB : Nat) (flags : List Bool) : List Outcome :=
  flags.map (fun b => if b then .retry A rA nA wA else .retry B rB nB wB)

theorem mkAB_nil (A B : String) (rA nA wA rB nB wB : Nat) :
    mkAB A B rA nA wA rB nB wB [] = [] := rfl

theorem mkAB_cons_true (A B : String) (rA nA wA rB nB wB : Nat) (fl : List Bool) :
    mkAB A B rA nA wA rB nB wB (true :: fl) =
      .retry A rA nA wA :: mkAB A B rA nA wA rB nB wB fl := rfl

theorem mkAB_cons_false (A B : String) (rA nA wA rB nB wB : Nat) (fl : List Bool) :
    mkAB A B rA nA wA rB nB wB (false :: fl) =
      .retry B rB nB wB :: mkAB A B rA nA wA rB nB wB fl := rfl

theorem requestGo_mkAB_interleave (cfg : RetryConfig) (A B : String)
    (rA nA wA rB nB wB : Nat) (hAB : A ≠ B) :
    ∀ (flags : List Bool) (rest : List Outcome) (rl tmp : Nat) (idents : String → Nat),
      idents A + flags.count true ≤ nA → idents B + flags.count false ≤ nB →
      requestGo cfg (mkAB A B rA nA wA rB nB wB flags ++ rest) rl tmp idents =
        (requestGo cfg rest rl tmp
          (fun i => if i = A then idents A + flags.count true
                    else if i = B then idents B + flags.count false
                    else idents i)).map (fun p => (p.1, p.2 + flags.length)) := by
  intro flags
  induction flags with
  | nil =>
      intro rest rl tmp idents _ _
      have hfn : (fun i => if i = A then idents A + List.count true []
                    else if i = B then idents B + List.count false []
                    else idents i) = idents := by
        funext i
        by_cases hiA : i = A
        · subst hiA; simp
        · by_cases hiB : i = B
          · subst hiB; simp [hiA]
          · simp [hiA, hiB]
      rw [hfn, mkAB_nil, List.nil_append]
      cases requestGo cfg rest rl tmp idents with
      | none => rfl
      | some p => simp
  | cons b fl ih =>
      intro rest rl tmp idents hA hB
      have hBA : B ≠ A := Ne.symm hAB
      cases b with
      | true =>
          have hcT : List.count true (true :: fl) = List.count true fl + 1 := by
            simp [List.count_cons]
          have hcF : List.count false (true :: fl) = List.count false fl := by
            simp [List.count_cons]
          rw [hcT] at hA
          rw [hcF] at hB
          rw [mkAB_cons_true, List.cons_append, requestGo_cons_retry,
              if_pos (by omega)]
          have e1 : (fun i => if i = A then idents A + 1 else idents i) A =
              idents A + 1 := by simp
          have e2 : (fun i => if i = A then idents A + 1 else idents i) B =
              idents B := by simp [hBA]
          rw [ih rest rl tmp (fun i => if i = A then idents A + 1 else idents i)
              (by rw [e1]; omega) (by rw [e2]; omega)]
          rw [Option.map_map]
          congr 1
          apply congrArg (requestGo cfg rest rl tmp)
          funext i
          by_cases hiA : i = A
          · subst hiA
            simp [hcT]
            omega
          · by_cases hiB : i = B
            · subst hiB
              simp [hcF, hiA, hBA]
            · simp [hiA, hiB]
      | false =>
          have hcT : List.count true (false :: fl) = List.count true fl := by
            simp [List.count_cons]
          have hcF : List.count false (false :: fl) = List.count false fl + 1 := by
            simp [List.count_cons]
          rw [hcT] at hA
          rw [hcF] at hB
          rw [mkAB_cons_false, List.cons_append, requestGo_cons_retry,
              if_pos (by omega)]
          have e1 : (fun i => if i = B then idents B + 1 else idents i) A =
              idents A := by simp [hAB]
          have e2 : (fun i => if i = B then idents B + 1 else idents i) B =
              idents B + 1 := by simp
          rw [ih rest rl tmp (fun i => if i = B then idents B + 1 else idents i)
              (by rw [e1]; omega) (by rw [e2]; omega)]
          rw [Option.map_map]
          congr 1
          apply congrArg (requestGo cfg rest rl tmp)
          funext i
          by_cases hiA : i = A
          · subst hiA
            simp [hcT, hAB]
          · by_cases hiB : i = B
            · subst hiB
              simp [hcF, hiA]
              omega
            · simp [hiA, hiB]

/-- C6: within one `request()` call, explicit-retry counters are kept per
ident.  After any interleaving of `Retry` raises with idents `A` and `B` in
which neither budget is yet exhausted, ident `A` is granted exactly
`nA - (number of A raises so far)` further attempts — independent of how
many `B` raises occurred and in which order — and the loop then raises
`RetryExceeded` carrying `A`'s ident and `A`'s budget.  All counters start
at zero because `request` initialises them so on each call. -/
theorem c6_retry_ident_isolation (cfg : RetryConfig) (A B : String)
    (rA nA wA rB nB wB : Nat) (flags : List Bool) (hAB : A ≠ B)
    (hA : flags.count true ≤ nA) (hB : flags.count false ≤ nB) :
    request cfg (mkAB A B rA nA wA rB nB wB flags ++
        List.replicate (nA - flags.count true + 1) (.retry A rA nA wA)) =
      some (.retryExceeded (.result rA) (some A) nA,
            (nA - flags.count true + 1) + flags.length) := by
  unfold request
  rw [requestGo_mkAB_interleave cfg A B rA nA wA rB nB wB hAB flags _ 0 0 _
        (by omega) (by omega)]
  rw [requestGo_retry_exceeded cfg A rA nA wA (nA - flags.count true) 0 0 _
        (by rw [if_pos rfl]; omega)]
  rfl

theorem c6_witness :
    request ⟨0, 0⟩ (mkAB "a" "b" 5 2 0 6 3 0 [true, false, true, false] ++
        List.replicate 1 (.retry "a" 5 2 0)) =
      some (.retryExceeded (.result 5) (some "a") 2, 5) := by
  have h := c6_retry_ident_isolation ⟨0, 0⟩ "a" "b" 5 2 0 6 3 0
    [true, false, true, false] (by decide) (by decide) (by decide)
  norm_num [List.count_cons] at h
  exact h

/-! ### `CursorFetchIterator` (cursor_fetch.py)

State fields mirror the Python instance attributes.  `max_count`,
`max_count_to_stop_fetch` and `max_fetch_count` are `Option Nat` with
`none` playing the role of `float('inf')` (the value `__init__` stores for
a `None` argument); `geOpt`/`optEqZero` mirror how the comparisons in the
source behave against `float('inf')`.  The buffer `_iterable` is kept in
Python list order; `pyPop` is `list.pop()` (remove and return the last
element).  Two ghost observer fields record the side effects the claims
talk about: `sleep_log` (arguments of the module-level `sleep` calls) and
`cb_calls` (how often the fetch callback ran); no source control flow reads
them.  The fetch callback receives the full state and returns the new
`cursor`, the new `_has_more` and its result list (`none` = Python `None`),
modelling a callback that uses `self.cursor` / `self.has_more` as the side
channel. -/

structure CursorState where
  cursor : Option Int
  _has_more : Option Bool
  reverse : Bool
  _iterable : List Int
  max_count : Option Nat
  max_count_to_stop_fetch : Option Nat
  max_fetch_count : Option Nat
  fetch_wait_seconds : Nat
  empty_fetch_retries : Nat
  empty_fetch_wait_seconds : Nat
  _stop_on_next_fetch : Bool
  fetch_count : Nat
  count : Nat
  sleep_log : List Nat
  cb_calls : Nat
deriving Repr, DecidableEq

/-- `n >= m` where `m` may be `float('inf')` (then always false). -/
def geOpt (n : Nat) : Option Nat → Bool
  | none => false
  | some m => decide (m ≤ n)

/-- `n == m` where `n` may be `float('inf')` (then false for finite `m`). -/
def optEqZero : Option Nat → Bool
  | none => false
  | some m => decide (m = 0)

/-- Python truthiness of the stored cursor value (`bool(None)` and
`bool(0)` are false). -/
def cursorTruthy : Option Int → Bool
  | none => false
  | some n => decide (n ≠ 0)

/-- Truthiness of the `has_more` property value in `if ... and self.has_more`. -/
def pyTruthyOB : Option Bool → Bool
  | none => false
  | some b => b

/-- `CursorFetchIterator.__init__`. -/
def mkCursorFetchIterator (cursor : Option Int) (has_more : Option Bool)
    (reverse : Bool) (initial : List Int)
    (max_count max_count_to_stop_fetch max_fetch_count : Option Nat)
    (fetch_wait_seconds empty_fetch_retries empty_fetch_wait_seconds : Nat) :
    CursorState :=
  { cursor := cursor
    _has_more := has_more
    reverse := reverse
    _iterable := if reverse then initial else initial.reverse
    max_count := max_count
    max_count_to_stop_fetch := max_count_to_stop_fetch
    max_fetch_count := max_fetch_count
    fetch_wait_seconds := fetch_wait_seconds
    empty_fetch_retries := empty_fetch_retries
    empty_fetch_wait_seconds := empty_fetch_wait_seconds
    _stop_on_next_fetch := false
    fetch_count := 0
    count := 0
    sleep_log := []
    cb_calls := 0 }

/-- The `has_more` property: the explicit `_has_more` when not `None`,
otherwise `True` before the first fetch and `bool(self.cursor)` after.
Its Python value is a bool in every case, hence always `some`. -/
def CursorState.has_more (s : CursorState) : Option Bool :=
  match s._has_more with
  | some b => some b
  | none => some (if s.fetch_count = 0 then true else cursorTruthy s.cursor)

/-- `list.pop()`: remove and return the last element. -/
def pyPop (l : List Int) : Option (Int × List Int) :=
  match l.reverse with
  | [] => none
  | x :: xs => some (x, xs.reverse)

/-- The module-level `sleep`, recorded in the ghost log. -/
def cursorSleep (n : Nat) (s : CursorState) : CursorState :=
  { s with sleep_log := s.sleep_log ++ [n] }

inductive CursorErr where
  | stopIteration
  | notImplemented
  | cursorFetchError (empty_fetch_retries empty_fetch_wait_seconds : Nat)
  | popEmpty
deriving Repr, DecidableEq

/-- A fetch callback: reads the iterator, returns the new `cursor`, the
new `_has_more`, and the fetched items (`none` = Python `None`). -/
def CursorCB : Type := CursorState → Option Int × Option Bool × Option (List Int)

/-- `CursorFetchIterator._fetch`: run the callback (mutating the cursor /
`_has_more` side channel) or raise `NotImplementedError` when absent. -/
def cursor_fetch (cb : Option CursorCB) (s : CursorState) :
    Except CursorErr (Option (List Int)) × CursorState :=
  match cb with
  | some f =>
      let r := f s
      (.ok r.2.2,
       { s with cursor := r.1, _has_more := r.2.1, cb_calls := s.cb_calls + 1 })
  | none => (.error .notImplemented, s)

/-- `CursorFetchIterator._fetch_next`. -/
def cursor_fetch_next (cb : Option CursorCB) (s : CursorState) :
    Option CursorErr × CursorState :=
  if optEqZero s.max_fetch_count || s._stop_on_next_fetch ||
      (s.has_more == some false) then
    (some .stopIteration, s)
  else
    let s1 := if s.fetch_count ≠ 0 ∧ s.fetch_wait_seconds ≠ 0 then
                cursorSleep s.fetch_wait_seconds s
              else s
    let s2 := { s1 with fetch_count := s1.fetch_count + 1 }
    let s3 := if geOpt s2.fetch_count s2.max_fetch_count then
                { s2 with _stop_on_next_fetch := true }
              else s2
    match cursor_fetch cb s3 with
    | (.error e, s4) => (some e, s4)
    | (.ok result, s4) =>
        match result with
        | none => (none, s4)
        | some items =>
            (none, { s4 with _iterable := if s4.reverse then items
                                          else items.reverse })

/-- `CursorFetchIterator._next`: guard against `max_count`, bump `count`,
latch the stop flag, pop the last buffered item. -/
def cursor_next_pop (s : CursorState) : Except CursorErr Int × CursorState :=
  if geOpt s.count s.max_count then
    (.error .stopIteration, s)
  else
    let s1 := { s with count := s.count + 1 }
    let s2 := if (some s1.count == s1.max_count) ||
                  geOpt s1.count s1.max_count_to_stop_fetch then
                { s1 with _stop_on_next_fetch := true }
              else s1
    match pyPop s2._iterable with
    | none => (.error .popEmpty, s2)
    | some (x, rest) => (.ok x, { s2 with _iterable := rest })

/-- The `for i in range(empty_fetch_retries)` retry loop in `next()`, with
its `for ... else` clause raising `CursorFetchError`; a `StopIteration`
from `_fetch_next` inside the loop propagates. -/
def emptyFetchLoop (cb : Option CursorCB) (efr efw : Nat) :
    Nat → CursorState → Option CursorErr × CursorState
  | 0, s => (some (.cursorFetchError efr efw), s)
  | k + 1, s =>
      let s1 := if efw ≠ 0 then cursorSleep efw s else s
      match cursor_fetch_next cb s1 with
      | (some e, s2) => (some e, s2)
      | (none, s2) =>
          if s2._iterable ≠ [] then (none, s2)
          else emptyFetchLoop cb efr efw k s2

/-- `CursorFetchIterator.next()`. -/
def cursor_next (cb : Option CursorCB) (s : CursorState) :
    Except CursorErr Int × CursorState :=
  if s._iterable ≠ [] then
    cursor_next_pop s
  else
    match cursor_fetch_next cb s with
    | (some e, s1) => (.error e, s1)
    | (none, s1) =>
        match (if s1._iterable = [] && pyTruthyOB s1.has_more then
                 emptyFetchLoop cb s1.empty_fetch_retries
                   s1.empty_fetch_wait_seconds s1.empty_fetch_retries s1
               else (none, s1)) with
        | (some e, s2) => (.error e, s2)
        | (none, s2) =>
            if s2._iterable = [] then (.error .stopIteration, s2)
            else cursor_next_pop s2

/-- Iterated `next()` calls: the state after `n` calls. -/
def iterState (cb : Option CursorCB) (s : CursorState) : Nat → CursorState
  | 0 => s
  | n + 1 => iterState cb (cursor_next cb s).2 n

/-- The outcome of the `(n+1)`-th `next()` call. -/
def iterResult (cb : Option CursorCB) (s : CursorState) (n : Nat) :
    Except CursorErr Int :=
  (cursor_next cb (iterState cb s n)).1

/-- C7 (amended): `has_more` equals the explicitly set value whenever one
was set; otherwise it is `True` (not `None`) before any fetch, and after at
least one fetch it equals the truthiness of `cursor`. -/
theorem c7_has_more_semantics (s : CursorState) :
    (∀ b, s._has_more = some b → s.has_more = some b) ∧
    (s._has_more = none → s.fetch_count = 0 → s.has_more = some true) ∧
    (s._has_more = none → s.fetch_count ≠ 0 →
      s.has_more = some (cursorTruthy s.cursor)) := by
  refine ⟨fun b hb => ?_, fun hn h0 => ?_, fun hn h0 => ?_⟩ <;>
    simp [CursorState.has_more, *]

/-- C7 counterexample: on a fresh iterator with `_has_more` unset and no
fetch performed, the property is `True`, not `None` as the claim states. -/
theorem c7_counterexample :
    (mkCursorFetchIterator none none false [] none none none 0 0 0)._has_more
        = none ∧
    (mkCursorFetchIterator none none false [] none none none 0 0 0).fetch_count
        = 0 ∧
    (mkCursorFetchIterator none none false [] none none none 0 0 0).has_more
        ≠ none ∧
    (mkCursorFetchIterator none none false [] none none none 0 0 0).has_more
        = some true :=
  ⟨rfl, rfl, by decide, rfl⟩

theorem c7_witness :
    (mkCursorFetchIterator none (some false) false [] none none none 0 0 0).has_more
        = some false ∧
    (mkCursorFetchIterator none none false [] none none none 0 0 0).has_more
        = some true ∧
    ({ mkCursorFetchIterator (some 7) none false [] none none none 0 0 0 with
        fetch_count := 2 }).has_more = some true :=
  ⟨(c7_has_more_semantics _).1 false rfl,
   (c7_has_more_semantics _).2.1 rfl rfl,
   (c7_has_more_semantics _).2.2 rfl (by decide)⟩

/-- The C8 scenario: `initial=[1,2,3]`, `max_count=None`, no fetch
callback, all other arguments at their defaults. -/
def c8state : CursorState :=
  mkCursorFetchIterator none none false [1, 2, 3] none none none 0 0 0

/-- C8 counterexample: the fourth `next()` call does not raise
`StopIteration` with `fetch_count = 0`; with no callback and `has_more`
still true (no fetch yet), the fetch attempt raises `NotImplementedError`
after bumping `fetch_count` to 1. -/
theorem c8_counterexample :
    ¬(iterResult none c8state 3 = .error .stopIteration ∧
      (iterState none c8state 4).fetch_count = 0) :=
  fun h => absurd h.2 (by decide)

/-- C8 (amended): the iterator yields 1, 2, 3 in order; the fourth `next()`
raises `NotImplementedError` (the fetch attempt, `_fetch` having no
callback), leaving `count = 3` and `fetch_count = 1`. -/
theorem c8_initial_list_iteration :
    iterResult none c8state 0 = .ok 1 ∧
    iterResult none c8state 1 = .ok 2 ∧
    iterResult none c8state 2 = .ok 3 ∧
    iterResult none c8state 3 = .error .notImplemented ∧
    (iterState none c8state 4).count = 3 ∧
    (iterState none c8state 4).fetch_count = 1 :=
  ⟨rfl, rfl, rfl, rfl, rfl, rfl⟩

/-! ### C5: exhausting `empty_fetch_retries` raises `CursorFetchError`

The states reached in the C5 scenario all share this shape: empty buffer,
`has_more` explicitly `True`, no fetch limits, `fetch_wait_seconds = 0`. -/

def c5state (R w fc cc : Nat) (cur : Option Int) (slog : List Nat) : CursorState :=
  { cursor := cur
    _has_more := some true
    reverse := false
    _iterable := []
    max_count := none
    max_count_to_stop_fetch := none
    max_fetch_count := none
    fetch_wait_seconds := 0
    empty_fetch_retries := R
    empty_fetch_wait_seconds := w
    _stop_on_next_fetch := false
    fetch_count := fc
    count := 0
    sleep_log := slog
    cb_calls := cc }

theorem c5_fetch_next (cb : CursorCB)
    (Hcb1 : ∀ t, (cb t).2.2 = some ([] : List Int))
    (Hcb2 : ∀ t, (cb t).2.1 = t._has_more)
    (R w fc cc : Nat) (cur : Option Int) (slog : List Nat) :
    cursor_fetch_next (some cb) (c5state R w fc cc cur slog) =
      (none, c5state R w (fc + 1) (cc + 1)
        ((cb (c5state R w (fc + 1) cc cur slog)).1) slog) := by
  simp [cursor_fetch_next, cursor_fetch, c5state, optEqZero, geOpt,
        CursorState.has_more, Hcb1, Hcb2]

theorem c5_loop (cb : CursorCB)
    (Hcb1 : ∀ t, (cb t).2.2 = some ([] : List Int))
    (Hcb2 : ∀ t, (cb t).2.1 = t._has_more) (R w : Nat) :
    ∀ (k fc cc : Nat) (cur : Option Int) (slog : List Nat),
      ∃ cur2, emptyFetchLoop (some cb) R w k (c5state R w fc cc cur slog) =
        (some (.cursorFetchError R w),
         c5state R w (fc + k) (cc + k) cur2
           (slog ++ (if w ≠ 0 then List.replicate k w else []))) := by
  intro k
  induction k with
  | zero =>
      intro fc cc cur slog
      refine ⟨cur, ?_⟩
      simp [emptyFetchLoop]
  | succ n ih =>
      intro fc cc cur slog
      by_cases hw : w ≠ 0
      · have hsleep : (if w ≠ 0 then cursorSleep w (c5state R w fc cc cur slog)
            else c5state R w fc cc cur slog) = c5state R w fc cc cur (slog ++ [w]) := by
          rw [if_pos hw]
          simp [cursorSleep, c5state]
        obtain ⟨cur2, h2⟩ := ih (fc + 1) (cc + 1)
          ((cb (c5state R w (fc + 1) cc cur (slog ++ [w]))).1) (slog ++ [w])
        refine ⟨cur2, ?_⟩
        rw [emptyFetchLoop, hsleep, c5_fetch_next cb Hcb1 Hcb2]
        dsimp only
        have hne : ¬((c5state R w (fc + 1) (cc + 1)
            ((cb (c5state R w (fc + 1) cc cur (slog ++ [w]))).1)
            (slog ++ [w]))._iterable ≠ []) := by simp [c5state]
        rw [if_neg hne, h2]
        rw [if_pos hw, if_pos hw]
        have h3 : fc + 1 + n = fc + (n + 1) := by omega
        have h4 : cc + 1 + n = cc + (n + 1) := by omega
        have h5 : (slog ++ [w]) ++ List.replicate n w =
            slog ++ List.replicate (n + 1) w := by
          rw [List.replicate_succ, List.append_assoc]
          rfl
        rw [h3, h4, h5]
      · have hw0 : w = 0 := by omega
        subst hw0
        have hsleep : (if (0 : Nat) ≠ 0 then
            cursorSleep 0 (c5state R 0 fc cc cur slog)
            else c5state R 0 fc cc cur slog) = c5state R 0 fc cc cur slog := by
          simp
        obtain ⟨cur2, h2⟩ := ih (fc + 1) (cc + 1)
          ((cb (c5state R 0 (fc + 1) cc cur slog)).1) slog
        refine ⟨cur2, ?_⟩
        rw [emptyFetchLoop, hsleep, c5_fetch_next cb Hcb1 Hcb2]
        dsimp only
        have hne : ¬((c5state R 0 (fc + 1) (cc + 1)
            ((cb (c5state R 0 (fc + 1) cc cur slog)).1) slog)._iterable ≠ []) := by
          simp [c5state]
        rw [if_neg hne, h2]
        have h3 : fc + 1 + n = fc + (n + 1) := by omega
        have h4 : cc + 1 + n = cc + (n + 1) := by omega
        rw [h3, h4]
        simp

/-- C5: on an iterator with `has_more` explicitly `True`, an empty buffer,
`empty_fetch_retries = R` and otherwise default construction arguments, a
fetch callback that always returns an empty list without changing
`has_more` is invoked exactly `R + 1` times by one `next()` call
(`fetch_count` and the ghost `cb_calls` both go from 0 to `R + 1`), with
`empty_fetch_wait_seconds` slept before each of the `R` retries, and the
call then raises `CursorFetchError`, not `StopIteration`. -/
theorem c5_empty_fetch_exhaustion (R w : Nat) (cb : CursorCB)
    (Hcb1 : ∀ t, (cb t).2.2 = some ([] : List Int))
    (Hcb2 : ∀ t, (cb t).2.1 = t._has_more) :
    ∃ s2 : CursorState,
      cursor_next (some cb)
          (mkCursorFetchIterator none (some true) false [] none none none 0 R w) =
        (.error (.cursorFetchError R w), s2) ∧
      s2.fetch_count = R + 1 ∧ s2.cb_calls = R + 1 ∧
      s2.sleep_log = (if w ≠ 0 then List.replicate R w else []) ∧
      s2._has_more = some true := by
  have hmk : mkCursorFetchIterator none (some true) false [] none none none 0 R w =
      c5state R w 0 0 none [] := by
    simp [mkCursorFetchIterator, c5state]
  obtain ⟨cur2, hloop⟩ := c5_loop cb Hcb1 Hcb2 R w R 1 1
    ((cb (c5state R w 1 0 none [])).1) []
  refine ⟨c5state R w (1 + R) (1 + R) cur2
      ([] ++ (if w ≠ 0 then List.replicate R w else [])), ?_, by simp [c5state]; omega,
      by simp [c5state]; omega, by simp [c5state], by simp [c5state]⟩
  rw [hmk]
  rw [show cursor_next (some cb) (c5state R w 0 0 none []) =
        (match cursor_fetch_next (some cb) (c5state R w 0 0 none []) with
         | (some e, s1) => (.error e, s1)
         | (none, s1) =>
             match (if s1._iterable = [] && pyTruthyOB s1.has_more then
                      emptyFetchLoop (some cb) s1.empty_fetch_retries
                        s1.empty_fetch_wait_seconds s1.empty_fetch_retries s1
                    else (none, s1)) with
             | (some e, s2) => (.error e, s2)
             | (none, s2) =>
                 if s2._iterable = [] then (.error .stopIteration, s2)
                 else cursor_next_pop s2) from by
      rw [cursor_next, if_neg (by simp [c5state])]]
  rw [c5_fetch_next cb Hcb1 Hcb2]
  dsimp only
  have hcond : ((c5state R w (0 + 1) (0 + 1) ((cb (c5state R w (0 + 1) 0 none [])).1)
      [])._iterable = [] &&
      pyTruthyOB (c5state R w (0 + 1) (0 + 1)
        ((cb (c5state R w (0 + 1) 0 none [])).1) []).has_more) = true := by
    simp [c5state, CursorState.has_more, pyTruthyOB]
  rw [if_pos hcond]
  have hfields : (c5state R w (0 + 1) (0 + 1)
      ((cb (c5state R w (0 + 1) 0 none [])).1) []).empty_fetch_retries = R := rfl
  rw [hfields]
  have hfields2 : (c5state R w (0 + 1) (0 + 1)
      ((cb (c5state R w (0 + 1) 0 none [])).1) []).empty_fetch_wait_seconds = w := rfl
  rw [hfields2]
  rw [show (c5state R w (0 + 1) (0 + 1) ((cb (c5state R w (0 + 1) 0 none [])).1) []) =
        c5state R w 1 1 ((cb (c5state R w 1 0 none [])).1) [] from rfl]
  rw [hloop]

/-- A concrete always-empty fetch callback for the C5 witness. -/
def c5cb : CursorCB := fun t => (none, t._has_more, some [])

theorem c5_witness :
    ∃ s2 : CursorState,
      cursor_next (some c5cb)
          (mkCursorFetchIterator none (some true) false [] none none none 0 2 3) =
        (.error (.cursorFetchError 2 3), s2) ∧
      s2.fetch_count = 2 + 1 ∧ s2.cb_calls = 2 + 1 ∧
      s2.sleep_log = (if (3 : Nat) ≠ 0 then List.replicate 2 3 else []) ∧
      s2._has_more = some true :=
  c5_empty_fetch_exhaustion 2 3 c5cb (fun _ => rfl) (fun _ => rfl)

/-! ### C4: count/fetch_count bounds and sticky termination -/

/-- The refusal condition at the top of `_fetch_next`. -/
def fetchGuard (s : CursorState) : Bool :=
  optEqZero s.max_fetch_count || s._stop_on_next_fetch || (s.has_more == some false)

theorem cursor_fetch_next_spec (cb : Option CursorCB) (s : CursorState) :
    (fetchGuard s = true ∧ cursor_fetch_next cb s = (some .stopIteration, s)) ∨
    (fetchGuard s = false ∧
     (cursor_fetch_next cb s).1 ≠ some .stopIteration ∧
     (cursor_fetch_next cb s).2.max_count = s.max_count ∧
     (cursor_fetch_next cb s).2.max_fetch_count = s.max_fetch_count ∧
     (cursor_fetch_next cb s).2.count = s.count ∧
     (cursor_fetch_next cb s).2.fetch_count = s.fetch_count + 1 ∧
     (cursor_fetch_next cb s).2._stop_on_next_fetch =
       (geOpt (s.fetch_count + 1) s.max_fetch_count || s._stop_on_next_fetch)) := by
  by_cases hg : fetchGuard s = true
  · left
    refine ⟨hg, ?_⟩
    unfold cursor_fetch_next
    unfold fetchGuard at hg
    rw [if_pos hg]
  · right
    have hg' : fetchGuard s = false := by
      revert hg; cases fetchGuard s <;> simp
    refine ⟨hg', ?_⟩
    unfold cursor_fetch_next
    unfold fetchGuard at hg
    rw [if_neg hg]
    cases cb with
    | none =>
        dsimp only [cursor_fetch]
        refine ⟨by simp, ?_, ?_, ?_, ?_, ?_⟩ <;> simp [apply_ite, cursorSleep]
    | some f =>
        dsimp only [cursor_fetch]
        split
        · refine ⟨by simp, ?_, ?_, ?_, ?_, ?_⟩ <;> simp [apply_ite, cursorSleep]
        · refine ⟨by simp, ?_, ?_, ?_, ?_, ?_⟩ <;> simp [apply_ite, cursorSleep]

/-- The invariant of the data-model section: `count` within `max_count`,
`fetch_count` within `max_fetch_count`, with the stop latch set as soon as
the fetch limit is reached. -/
def CursorInvariant (s : CursorState) : Prop :=
  (∀ m, s.max_count = some m → s.count ≤ m) ∧
  (∀ m, s.max_fetch_count = some m →
    s.fetch_count ≤ m ∧
    (0 < m → s.fetch_count = m → s._stop_on_next_fetch = true))

theorem cursor_fetch_next_inv (cb : Option CursorCB) (s : CursorState)
    (h : CursorInvariant s) : CursorInvariant (cursor_fetch_next cb s).2 := by
  rcases cursor_fetch_next_spec cb s with ⟨_, heq⟩ | ⟨hgf, _, hmc, hmf, hcnt, hfc, hstop⟩
  · rw [heq]
    exact h
  · have hguard : optEqZero s.max_fetch_count = false ∧
        s._stop_on_next_fetch = false := by
      unfold fetchGuard at hgf
      simp only [Bool.or_eq_false_iff] at hgf
      exact ⟨hgf.1.1, hgf.1.2⟩
    constructor
    · intro m hm
      rw [hcnt]
      exact h.1 m (hmc ▸ hm)
    · intro m hm
      rw [hmf] at hm
      have h2 := h.2 m hm
      have hm0 : m ≠ 0 := by
        have := hguard.1
        rw [hm] at this
        simpa [optEqZero] using this
      have hlt : s.fetch_count < m := by
        rcases Nat.lt_or_ge s.fetch_count m with hlt | hge
        · exact hlt
        · have heqm : s.fetch_count = m := by omega
          have := h2.2 (by omega) heqm
          rw [hguard.2] at this
          exact absurd this (by simp)
      refine ⟨by rw [hfc]; omega, fun hpos hfcm => ?_⟩
      rw [hfc] at hfcm
      rw [hstop, hm]
      simp [geOpt, hfcm]

theorem cursor_next_pop_spec (s : CursorState) :
    (geOpt s.count s.max_count = true ∧
     cursor_next_pop s = (.error .stopIteration, s)) ∨
    (geOpt s.count s.max_count = false ∧
     (cursor_next_pop s).1 ≠ .error .stopIteration ∧
     (cursor_next_pop s).2.max_count = s.max_count ∧
     (cursor_next_pop s).2.max_fetch_count = s.max_fetch_count ∧
     (cursor_next_pop s).2.fetch_count = s.fetch_count ∧
     (cursor_next_pop s).2.count = s.count + 1 ∧
     (s._stop_on_next_fetch = true →
       (cursor_next_pop s).2._stop_on_next_fetch = true)) := by
  by_cases hg : geOpt s.count s.max_count = true
  · left
    refine ⟨hg, ?_⟩
    unfold cursor_next_pop
    rw [if_pos hg]
  · right
    have hg' : geOpt s.count s.max_count = false := by
      revert hg; cases geOpt s.count s.max_count <;> simp
    refine ⟨hg', ?_⟩
    unfold cursor_next_pop
    rw [if_neg hg]
    dsimp only
    split <;>
      refine ⟨by simp, ?_, ?_, ?_, ?_, ?_⟩ <;>
      first
        | (intro hst; split <;> simp [hst])
        | (split <;> simp)

theorem cursor_next_pop_inv (s : CursorState) (h : CursorInvariant s) :
    CursorInvariant (cursor_next_pop s).2 := by
  rcases cursor_next_pop_spec s with ⟨_, heq⟩ | ⟨hgf, _, hmc, hmf, hfc, hcnt, hstop⟩
  · rw [heq]
    exact h
  · constructor
    · intro m hm
      rw [hmc] at hm
      have hlt : s.count < m := by
        have := hgf
        rw [hm] at this
        simpa [geOpt] using this
      rw [hcnt]
      omega
    · intro m hm
      rw [hmf] at hm
      have h2 := h.2 m hm
      exact ⟨by rw [hfc]; exact h2.1, fun hpos hfcm => by
        rw [hfc] at hfcm
        exact hstop (h2.2 hpos hfcm)⟩

theorem cursorSleep_inv (n : Nat) (s : CursorState) (h : CursorInvariant s) :
    CursorInvariant (cursorSleep n s) := h

theorem emptyFetchLoop_spec (cb : Option CursorCB) (efr efw : Nat) :
    ∀ (k : Nat) (s : CursorState), s._iterable = [] →
      (CursorInvariant s → CursorInvariant (emptyFetchLoop cb efr efw k s).2) ∧
      ((emptyFetchLoop cb efr efw k s).2.max_count = s.max_count ∧
       (emptyFetchLoop cb efr efw k s).2.max_fetch_count = s.max_fetch_count) ∧
      ((emptyFetchLoop cb efr efw k s).1 = some .stopIteration →
        fetchGuard (emptyFetchLoop cb efr efw k s).2 = true ∧
        (emptyFetchLoop cb efr efw k s).2._iterable = []) ∧
      ((emptyFetchLoop cb efr efw k s).1 = none →
        (emptyFetchLoop cb efr efw k s).2._iterable ≠ []) := by
  intro k
  induction k with
  | zero =>
      intro s hiter
      refine ⟨fun h => h, ⟨rfl, rfl⟩, fun hstop => ?_, fun hnone => ?_⟩
      · exact absurd hstop (by simp [emptyFetchLoop])
      · exact absurd hnone (by simp [emptyFetchLoop])
  | succ k ih =>
      intro s hiter
      simp only [emptyFetchLoop]
      set s1 := if efw ≠ 0 then cursorSleep efw s else s with hs1
      have h1iter : s1._iterable = [] := by
        rw [hs1]; split <;> simpa [cursorSleep] using hiter
      have h1guard : fetchGuard s1 = fetchGuard s := by
        rw [hs1]; split <;> rfl
      have h1inv : CursorInvariant s → CursorInvariant s1 := by
        intro h; rw [hs1]; split
        · exact cursorSleep_inv _ _ h
        · exact h
      have h1mc : s1.max_count = s.max_count := by rw [hs1]; split <;> rfl
      have h1mf : s1.max_fetch_count = s.max_fetch_count := by
        rw [hs1]; split <;> rfl
      rcases hfn : cursor_fetch_next cb s1 with ⟨e, s2⟩
      rcases cursor_fetch_next_spec cb s1 with ⟨hg, heq⟩ |
        ⟨hgf, hne, hmc, hmf, _, _, _⟩
      · rw [hfn] at heq
        have he : e = some .stopIteration := by
          have := congrArg Prod.fst heq; simpa using this
        have hs2 : s2 = s1 := by
          have := congrArg Prod.snd heq; simpa using this
        subst he
        subst hs2
        dsimp only
        refine ⟨fun h => h1inv h, ⟨h1mc, h1mf⟩, fun _ => ⟨?_, h1iter⟩,
          fun hnone => absurd hnone (by simp)⟩
        rw [h1guard] at hg ⊢
        exact hg
      · rw [hfn] at hne hmc hmf
        dsimp only at hne hmc hmf
        have hinv2 : CursorInvariant s → CursorInvariant s2 := by
          intro h
          have := cursor_fetch_next_inv cb s1 (h1inv h)
          rw [hfn] at this
          exact this
        cases e with
        | some e2 =>
            dsimp only
            refine ⟨hinv2, ⟨by rw [hmc, h1mc], by rw [hmf, h1mf]⟩,
              fun hstop => ?_, fun hnone => absurd hnone (by simp)⟩
            exact absurd hstop (by simpa using hne)
        | none =>
            dsimp only
            by_cases h2it : s2._iterable ≠ []
            · rw [if_pos h2it]
              exact ⟨hinv2, ⟨by rw [hmc, h1mc], by rw [hmf, h1mf]⟩,
                fun hstop => absurd hstop (by simp),
                fun _ => h2it⟩
            · rw [if_neg h2it]
              have h2it' : s2._iterable = [] := by
                revert h2it
                cases s2._iterable <;> simp
              obtain ⟨ihinv, ⟨ihmc, ihmf⟩, ihstop, ihnone⟩ := ih s2 h2it'
              exact ⟨fun h => ihinv (hinv2 h),
                ⟨by rw [ihmc, hmc, h1mc], by rw [ihmf, hmf, h1mf]⟩,
                ihstop, ihnone⟩

/-- A state from which every further `next()` call raises `StopIteration`
without changing anything: either the buffer is empty and the fetch guard
refuses, or the buffer is non-empty and the `max_count` guard of `_next`
refuses. -/
def StoppedState (s : CursorState) : Prop :=
  (s._iterable = [] ∧ fetchGuard s = true) ∨
  (s._iterable ≠ [] ∧ geOpt s.count s.max_count = true)

theorem cursor_next_guard_stop (cb : Option CursorCB) (s : CursorState)
    (h1 : s._iterable = []) (h2 : fetchGuard s = true) :
    cursor_next cb s = (.error .stopIteration, s) := by
  have hfn : cursor_fetch_next cb s = (some .stopIteration, s) := by
    unfold cursor_fetch_next
    unfold fetchGuard at h2
    rw [if_pos h2]
  unfold cursor_next
  rw [if_neg (by simp [h1]), hfn]

theorem cursor_next_pop_guard_stop (cb : Option CursorCB) (s : CursorState)
    (h1 : s._iterable ≠ []) (h2 : geOpt s.count s.max_count = true) :
    cursor_next cb s = (.error .stopIteration, s) := by
  unfold cursor_next
  rw [if_pos h1]
  unfold cursor_next_pop
  rw [if_pos h2]

theorem stoppedState_next (cb : Option CursorCB) (s : CursorState)
    (h : StoppedState s) : cursor_next cb s = (.error .stopIteration, s) := by
  rcases h with ⟨h1, h2⟩ | ⟨h1, h2⟩
  · exact cursor_next_guard_stop cb s h1 h2
  · exact cursor_next_pop_guard_stop cb s h1 h2

theorem pyTruthyOB_has_more_false (s : CursorState)
    (h : pyTruthyOB s.has_more = false) : s.has_more = some false := by
  unfold CursorState.has_more at h ⊢
  rcases hsm : s._has_more with _ | b <;> rw [hsm] at h <;>
    dsimp only [pyTruthyOB] at h <;> rw [h]

theorem fetchGuard_of_has_more_false (s : CursorState)
    (h : s.has_more = some false) : fetchGuard s = true := by
  unfold fetchGuard
  rw [h]
  simp

theorem cursor_next_spec (cb : Option CursorCB) (s : CursorState) :
    (CursorInvariant s → CursorInvariant (cursor_next cb s).2) ∧
    (cursor_next cb s).2.max_count = s.max_count ∧
    (cursor_next cb s).2.max_fetch_count = s.max_fetch_count ∧
    ((cursor_next cb s).1 = .error .stopIteration →
      StoppedState (cursor_next cb s).2) := by
  by_cases hit : s._iterable ≠ []
  · have hres : cursor_next cb s = cursor_next_pop s := by
      unfold cursor_next
      rw [if_pos hit]
    rw [hres]
    rcases cursor_next_pop_spec s with ⟨hg, heq⟩ | ⟨hgf, hne, hmc, hmf, _, _, _⟩
    · rw [heq]
      exact ⟨fun h => h, rfl, rfl, fun _ => Or.inr ⟨hit, hg⟩⟩
    · exact ⟨fun h => cursor_next_pop_inv s h, hmc, hmf,
        fun hstop => absurd hstop hne⟩
  · have hit' : s._iterable = [] := by revert hit; cases s._iterable <;> simp
    rcases hfn : cursor_fetch_next cb s with ⟨e, s1⟩
    cases e with
    | some e2 =>
        have hres : cursor_next cb s = (.error e2, s1) := by
          unfold cursor_next
          rw [if_neg hit, hfn]
        rw [hres]
        rcases cursor_fetch_next_spec cb s with ⟨hg, heq⟩ |
          ⟨hgf, hne, hmc, hmf, _, _, _⟩
        · rw [hfn] at heq
          obtain he2 : e2 = .stopIteration := by
            have := congrArg Prod.fst heq; simpa using this
          obtain hs1 : s1 = s := by
            have := congrArg Prod.snd heq; simpa using this
          subst he2
          subst hs1
          exact ⟨fun h => h, rfl, rfl, fun _ => Or.inl ⟨hit', hg⟩⟩
        · rw [hfn] at hne hmc hmf
          have hinv1 : CursorInvariant s → CursorInvariant s1 := fun h => by
            have := cursor_fetch_next_inv cb s h
            rw [hfn] at this
            exact this
          refine ⟨hinv1, hmc, hmf, fun hstop => ?_⟩
          have he2 : e2 = .stopIteration := by simpa using hstop
          have hne' : ¬(some e2 = some CursorErr.stopIteration) := by
            simpa using hne
          exact absurd (by rw [he2]) hne'
    | none =>
        rcases cursor_fetch_next_spec cb s with ⟨hg, heq⟩ |
          ⟨hgf, hne, hmc, hmf, _, _, _⟩
        · rw [hfn] at heq
          exact absurd (congrArg Prod.fst heq) (by simp)
        · rw [hfn] at hne hmc hmf
          have hinv1 : CursorInvariant s → CursorInvariant s1 := fun h => by
            have := cursor_fetch_next_inv cb s h
            rw [hfn] at this
            exact this
          by_cases hcond : (decide (s1._iterable = []) && pyTruthyOB s1.has_more)
              = true
          · have h1it : s1._iterable = [] := by
              have := (Bool.and_eq_true _ _).mp hcond
              simpa using this.1
            have hres : cursor_next cb s =
                (match emptyFetchLoop cb s1.empty_fetch_retries
                    s1.empty_fetch_wait_seconds s1.empty_fetch_retries s1 with
                 | (some e, s2) => (.error e, s2)
                 | (none, s2) =>
                     if s2._iterable = [] then (.error .stopIteration, s2)
                     else cursor_next_pop s2) := by
              unfold cursor_next
              rw [if_neg hit, hfn]
              dsimp only
              rw [if_pos hcond]
            rw [hres]
            obtain ⟨ihinv, ⟨ihmc, ihmf⟩, ihstop, ihnone⟩ :=
              emptyFetchLoop_spec cb s1.empty_fetch_retries
                s1.empty_fetch_wait_seconds s1.empty_fetch_retries s1 h1it
            rcases hloop : emptyFetchLoop cb s1.empty_fetch_retries
                s1.empty_fetch_wait_seconds s1.empty_fetch_retries s1 with ⟨e2, s2⟩
            rw [hloop] at ihinv ihmc ihmf ihstop ihnone
            cases e2 with
            | some e3 =>
                dsimp only
                refine ⟨fun h => ihinv (hinv1 h), by rw [ihmc, hmc],
                  by rw [ihmf, hmf], fun hstop => ?_⟩
                have he3 : e3 = .stopIteration := by simpa using hstop
                subst he3
                obtain ⟨hg2, hit2⟩ := ihstop rfl
                exact Or.inl ⟨hit2, hg2⟩
            | none =>
                dsimp only
                have hne2 : s2._iterable ≠ [] := ihnone rfl
                rw [if_neg hne2]
                rcases cursor_next_pop_spec s2 with ⟨hg3, heq3⟩ |
                  ⟨_, hne3, hmc3, hmf3, _, _, _⟩
                · rw [heq3]
                  exact ⟨fun h => ihinv (hinv1 h), by rw [ihmc, hmc],
                    by rw [ihmf, hmf], fun _ => Or.inr ⟨hne2, hg3⟩⟩
                · exact ⟨fun h => cursor_next_pop_inv s2 (ihinv (hinv1 h)),
                    by rw [hmc3, ihmc, hmc], by rw [hmf3, ihmf, hmf],
                    fun hstop => absurd hstop hne3⟩
          · have hres : cursor_next cb s =
                (if s1._iterable = [] then (.error .stopIteration, s1)
                 else cursor_next_pop s1) := by
              unfold cursor_next
              rw [if_neg hit, hfn]
              dsimp only
              rw [if_neg hcond]
            rw [hres]
            by_cases h1it : s1._iterable = []
            · rw [if_pos h1it]
              have htr : pyTruthyOB s1.has_more = false := by
                cases hmb : pyTruthyOB s1.has_more
                · rfl
                · exact absurd (by simp [h1it, hmb]) hcond
              refine ⟨hinv1, hmc, hmf, fun _ => Or.inl ⟨h1it, ?_⟩⟩
              exact fetchGuard_of_has_more_false s1
                (pyTruthyOB_has_more_false s1 htr)
            · rw [if_neg h1it]
              rcases cursor_next_pop_spec s1 with ⟨hg3, heq3⟩ |
                ⟨_, hne3, hmc3, hmf3, _, _, _⟩
              · rw [heq3]
                exact ⟨hinv1, hmc, hmf, fun _ => Or.inr ⟨h1it, hg3⟩⟩
              · exact ⟨fun h => cursor_next_pop_inv s1 (hinv1 h),
                  by rw [hmc3, hmc], by rw [hmf3, hmf],
                  fun hstop => absurd hstop hne3⟩

theorem iterState_succ_last (cb : Option CursorCB) (s : CursorState) (n : Nat) :
    iterState cb s (n + 1) = (cursor_next cb (iterState cb s n)).2 := by
  induction n generalizing s with
  | zero => rfl
  | succ k ih =>
      rw [show iterState cb s (k + 1 + 1) =
            iterState cb (cursor_next cb s).2 (k + 1) from rfl, ih,
          show iterState cb s (k + 1) =
            iterState cb (cursor_next cb s).2 k from rfl]

theorem iterState_add (cb : Option CursorCB) :
    ∀ (b : Nat) (s : CursorState) (a : Nat),
      iterState cb (iterState cb s b) a = iterState cb s (b + a) := by
  intro b
  induction b with
  | zero => intro s a; simp [iterState]
  | succ k ih =>
      intro s a
      rw [show iterState cb s (k + 1) =
            iterState cb (cursor_next cb s).2 k from rfl, ih,
          show k + 1 + a = (k + a) + 1 by omega,
          show iterState cb s ((k + a) + 1) =
            iterState cb (cursor_next cb s).2 (k + a) from rfl]

theorem iterState_inv (cb : Option CursorCB) (s : CursorState) (n : Nat)
    (h : CursorInvariant s) : CursorInvariant (iterState cb s n) := by
  induction n generalizing s with
  | zero => exact h
  | succ k ih => exact ih (cursor_next cb s).2 ((cursor_next_spec cb s).1 h)

theorem iterState_frame (cb : Option CursorCB) (s : CursorState) (n : Nat) :
    (iterState cb s n).max_count = s.max_count ∧
    (iterState cb s n).max_fetch_count = s.max_fetch_count := by
  induction n generalizing s with
  | zero => exact ⟨rfl, rfl⟩
  | succ k ih =>
      obtain ⟨h1, h2⟩ := ih (cursor_next cb s).2
      exact ⟨h1.trans (cursor_next_spec cb s).2.1,
             h2.trans (cursor_next_spec cb s).2.2.1⟩

theorem stoppedState_iter_fix (cb : Option CursorCB) (t : CursorState)
    (h : StoppedState t) : ∀ k, iterState cb t k = t := by
  intro k
  induction k with
  | zero => rfl
  | succ j ih =>
      show iterState cb (cursor_next cb t).2 j = t
      rw [stoppedState_next cb t h]
      exact ih

theorem iterResult_stop_persists (cb : Option CursorCB) (s : CursorState)
    (n : Nat) (h : iterResult cb s n = .error .stopIteration) :
    ∀ k, iterResult cb s (n + k) = .error .stopIteration := by
  intro k
  cases k with
  | zero => simpa using h
  | succ j =>
      have h1 : StoppedState (iterState cb s (n + 1)) := by
        rw [iterState_succ_last]
        exact (cursor_next_spec cb (iterState cb s n)).2.2.2 h
      have h2 : iterState cb s (n + (j + 1)) = iterState cb s (n + 1) := by
        rw [show n + (j + 1) = (n + 1) + j by omega,
            ← iterState_add cb (n + 1) s j,
            stoppedState_iter_fix cb _ h1 j]
      rw [iterResult, h2, stoppedState_next cb _ h1]

/-- The C4 concrete scenario: ten buffered items, `max_count = 3`. -/
def c4scenario : CursorState :=
  mkCursorFetchIterator none none false [1, 2, 3, 4, 5, 6, 7, 8, 9, 10]
    (some 3) none none 0 0 0

/-- C4: over every sequence of `next()` calls from a freshly constructed
iterator, `count` never exceeds `max_count` and `fetch_count` never exceeds
`max_fetch_count`; once a `next()` call has raised `StopIteration`, every
later call raises `StopIteration` again; and in the concrete scenario with
ten available items and `max_count = 3`, exactly three calls yield items,
the fourth raises `StopIteration` although items remain buffered, and so
does every call after it. -/
theorem c4_limits_and_sticky_termination (cb : Option CursorCB)
    (cursor : Option Int) (has_more : Option Bool) (reverse : Bool)
    (initial : List Int) (mc mcsf mfc : Option Nat) (fws efr efw n : Nat) :
    (∀ m, mc = some m →
      (iterState cb (mkCursorFetchIterator cursor has_more reverse initial
        mc mcsf mfc fws efr efw) n).count ≤ m) ∧
    (∀ m, mfc = some m →
      (iterState cb (mkCursorFetchIterator cursor has_more reverse initial
        mc mcsf mfc fws efr efw) n).fetch_count ≤ m) ∧
    (iterResult cb (mkCursorFetchIterator cursor has_more reverse initial
        mc mcsf mfc fws efr efw) n = .error .stopIteration →
      ∀ k, iterResult cb (mkCursorFetchIterator cursor has_more reverse initial
        mc mcsf mfc fws efr efw) (n + 1 + k) = .error .stopIteration) ∧
    (iterResult none c4scenario 0 = .ok 1 ∧
     iterResult none c4scenario 1 = .ok 2 ∧
     iterResult none c4scenario 2 = .ok 3 ∧
     iterResult none c4scenario 3 = .error .stopIteration ∧
     (iterState none c4scenario 4)._iterable ≠ [] ∧
     ∀ j, iterResult none c4scenario (3 + j) = .error .stopIteration) := by
  have hinv0 : CursorInvariant (mkCursorFetchIterator cursor has_more reverse
      initial mc mcsf mfc fws efr efw) := by
    constructor
    · intro m _
      exact Nat.zero_le m
    · intro m _
      refine ⟨Nat.zero_le m, fun hpos h0 => ?_⟩
      rw [show (mkCursorFetchIterator cursor has_more reverse initial
            mc mcsf mfc fws efr efw).fetch_count = 0 from rfl] at h0
      omega
  have hinv := iterState_inv cb _ n hinv0
  obtain ⟨hfr1, hfr2⟩ := iterState_frame cb (mkCursorFetchIterator cursor
    has_more reverse initial mc mcsf mfc fws efr efw) n
  refine ⟨fun m hm => hinv.1 m (by rw [hfr1]; exact hm),
          fun m hm => (hinv.2 m (by rw [hfr2]; exact hm)).1,
          fun hstop k => ?_, rfl, rfl, rfl, rfl, by decide, fun j => ?_⟩
  · have := iterResult_stop_persists cb _ n hstop (1 + k)
    rwa [show n + (1 + k) = n + 1 + k by omega] at this
  · exact iterResult_stop_persists none c4scenario 3 rfl j

theorem c4_witness :
    (iterState none (mkCursorFetchIterator none none false
        [1, 2, 3, 4, 5, 6, 7, 8, 9, 10] (some 3) none (some 5) 0 0 0) 6).count
      ≤ 3 ∧
    (iterState none (mkCursorFetchIterator none none false
        [1, 2, 3, 4, 5, 6, 7, 8, 9, 10] (some 3) none (some 5) 0 0 0) 6).fetch_count
      ≤ 5 ∧
    iterResult none (mkCursorFetchIterator none none false
        [1, 2, 3, 4, 5, 6, 7, 8, 9, 10] (some 3) none (some 5) 0 0 0) 7
      = .error .stopIteration := by
  have h := c4_limits_and_sticky_termination none none none false
    [1, 2, 3, 4, 5, 6, 7, 8, 9, 10] (some 3) none (some 5) 0 0 0 6
  exact ⟨h.1 3 rfl, h.2.1 5 rfl, h.2.2.1 (by rfl) 0⟩

/-! ### `auth_required` decorator (client.py lines 460-474)

The wrapped operation is a script of per-invocation results (the wrapper
calls it at most twice).  `authenticate` and `auth_required_processor` are
the client's pluggable hooks, modelled as state transformers (the processor
also reports success).  The result carries the final client state and ghost
counters of how often the operation, `authenticate` and the processor ran. -/

structure AuthClient where
  auto_authenticate : Bool
  is_authenticated : Bool
deriving Repr, DecidableEq

inductive OpOutcome where
  | ok (v : Nat)
  | authRequired (e : Nat)
  | failure (e : Nat)
deriving Repr, DecidableEq

inductive AuthRunResult where
  | ok (v : Nat)
  | authRequired (e : Nat)
  | failure (e : Nat)
  | noFuel
deriving Repr, DecidableEq

structure AuthCounts where
  op : Nat
  auth : Nat
  proc : Nat
deriving Repr, DecidableEq

/-- Returning (`ok`) or raising (`authRequired`/`failure`) the operation's
result to the caller unchanged. -/
def interpOp : OpOutcome → AuthRunResult
  | .ok v => .ok v
  | .authRequired e => .authRequired e
  | .failure e => .failure e

/-- The `wrapper` closure of `auth_required`.  `noFuel` is a modelling
artifact for a script shorter than the number of invocations made. -/
def auth_required (authenticate : AuthClient → AuthClient)
    (auth_required_processor : AuthClient → AuthClient × Bool)
    (script : List OpOutcome) (client : AuthClient) :
    AuthRunResult × AuthClient × AuthCounts :=
  if client.auto_authenticate && !client.is_authenticated then
    let c1 := authenticate client
    match script with
    | [] => (.noFuel, c1, ⟨0, 1, 0⟩)
    | o :: _ => (interpOp o, c1, ⟨1, 1, 0⟩)
  else
    match script with
    | [] => (.noFuel, client, ⟨0, 0, 0⟩)
    | .ok v :: _ => (.ok v, client, ⟨1, 0, 0⟩)
    | .failure e :: _ => (.failure e, client, ⟨1, 0, 0⟩)
    | .authRequired e :: rest =>
        if client.auto_authenticate then
          let pr := auth_required_processor client
          if pr.2 then
            match rest with
            | [] => (.noFuel, pr.1, ⟨2, 0, 1⟩)
            | o2 :: _ => (interpOp o2, pr.1, ⟨2, 0, 1⟩)
          else
            (.authRequired e, { pr.1 with is_authenticated := false }, ⟨1, 0, 1⟩)
        else
          (.authRequired e, { client with is_authenticated := false }, ⟨1, 0, 0⟩)

/-- C9: with auto-authentication on and the client unauthenticated,
`authenticate` runs first and the operation runs exactly once, its outcome
(success or any exception) passed through.  Otherwise, on `AuthRequired`
with auto-authentication on and a successful recovery hook, the operation
runs exactly once more and its outcome is passed through (a second
`AuthRequired` propagates with no further retry and no flag reset); on
`AuthRequired` with a failing hook or with auto-authentication off, the
wrapper sets `is_authenticated := False` and re-raises the original
`AuthRequired` after a single run. -/
theorem c9_auth_required_semantics (authenticate : AuthClient → AuthClient)
    (proc : AuthClient → AuthClient × Bool) (c : AuthClient)
    (o o2 : OpOutcome) (e : Nat) (rest : List OpOutcome) :
    (c.auto_authenticate = true → c.is_authenticated = false →
      auth_required authenticate proc (o :: rest) c =
        (interpOp o, authenticate c, ⟨1, 1, 0⟩)) ∧
    (c.is_authenticated = true → c.auto_authenticate = true →
      (proc c).2 = true →
      auth_required authenticate proc (.authRequired e :: o2 :: rest) c =
        (interpOp o2, (proc c).1, ⟨2, 0, 1⟩)) ∧
    (c.is_authenticated = true → c.auto_authenticate = true →
      (proc c).2 = false →
      auth_required authenticate proc (.authRequired e :: rest) c =
        (.authRequired e, { (proc c).1 with is_authenticated := false },
         ⟨1, 0, 1⟩)) ∧
    (c.auto_authenticate = false →
      auth_required authenticate proc (.authRequired e :: rest) c =
        (.authRequired e, { c with is_authenticated := false }, ⟨1, 0, 0⟩)) := by
  refine ⟨fun h1 h2 => ?_, fun h1 h2 h3 => ?_, fun h1 h2 h3 => ?_, fun h1 => ?_⟩
  · unfold auth_required
    rw [h1, h2]
    rfl
  · unfold auth_required
    rw [h1, h2]
    simp only [Bool.not_true, Bool.and_false, Bool.false_eq_true, if_false]
    rw [h3]
    rfl
  · unfold auth_required
    rw [h1, h2]
    simp only [Bool.not_true, Bool.and_false, Bool.false_eq_true, if_false]
    rw [h3]
    rfl
  · unfold auth_required
    rw [h1]
    simp only [Bool.false_and, Bool.false_eq_true, if_false]

theorem c9_witness :
    auth_required (fun c => { c with is_authenticated := true })
        (fun c => (c, true)) [.failure 9] ⟨true, false⟩ =
      (.failure 9, ⟨true, true⟩, ⟨1, 1, 0⟩) ∧
    auth_required (fun c => c) (fun c => ({ c with is_authenticated := true },
        true)) [.authRequired 1, .ok 5] ⟨true, true⟩ =
      (.ok 5, ⟨true, true⟩, ⟨2, 0, 1⟩) ∧
    auth_required (fun c => c) (fun c => (c, false)) [.authRequired 1]
        ⟨true, true⟩ =
      (.authRequired 1, ⟨true, false⟩, ⟨1, 0, 1⟩) ∧
    auth_required (fun c => c) (fun c => (c, true)) [.authRequired 1]
        ⟨false, true⟩ =
      (.authRequired 1, ⟨false, false⟩, ⟨1, 0, 0⟩) := by
  refine ⟨?_, ?_, ?_, ?_⟩
  · exact (c9_auth_required_semantics _ _ ⟨true, false⟩ (.failure 9) (.ok 0) 0
      []).1 rfl rfl
  · exact (c9_auth_required_semantics _ _ ⟨true, true⟩ (.ok 0) (.ok 5) 1
      []).2.1 rfl rfl rfl
  · exact (c9_auth_required_semantics _ _ ⟨true, true⟩ (.ok 0) (.ok 0) 1
      []).2.2.1 rfl rfl rfl
  · exact (c9_auth_required_semantics _ _ ⟨false, true⟩ (.ok 0) (.ok 0) 1
      []).2.2.2 rfl

/-! ### `BaseClient.__init__` falsy-override handling (client.py 87-122)

The constructor assigns `self.x = x or self.x` for these six attributes, so
any falsy argument (`None`, `0`, `0.0`) keeps the class-level default. -/

structure ClientRetryAttrs where
  debug_level : Int
  request_wait_seconds : Int
  ratelimit_retries : Int
  ratelimit_wait_seconds : Int
  temporary_error_retries : Int
  temporary_error_wait_seconds : Int
deriving Repr, DecidableEq

/-- Python `arg or default` for an int-or-None argument: a falsy argument
(`None` or `0`) yields the default. -/
def pyIntOr (arg : Option Int) (dflt : Int) : Int :=
  match arg with
  | none => dflt
  | some v => if v ≠ 0 then v else dflt

/-- The class-level defaults of `BaseClient` (client.py lines 68-78). -/
def baseClientDefaults : ClientRetryAttrs :=
  { debug_level := 4
    request_wait_seconds := 0
    ratelimit_retries := 0
    ratelimit_wait_seconds := 0
    temporary_error_retries := 1
    temporary_error_wait_seconds := 0 }

/-- `BaseClient.__init__` restricted to the six `x or self.x` attributes;
`defaults` are the class attributes in scope at assignment time. -/
def initBaseClient (defaults : ClientRetryAttrs)
    (debug_level request_wait_seconds ratelimit_retries ratelimit_wait_seconds
     temporary_error_retries temporary_error_wait_seconds : Option Int) :
    ClientRetryAttrs :=
  { debug_level := pyIntOr debug_level defaults.debug_level
    request_wait_seconds :=
      pyIntOr request_wait_seconds defaults.request_wait_seconds
    ratelimit_retries := pyIntOr ratelimit_retries defaults.ratelimit_retries
    ratelimit_wait_seconds :=
      pyIntOr ratelimit_wait_seconds defaults.ratelimit_wait_seconds
    temporary_error_retries :=
      pyIntOr temporary_error_retries defaults.temporary_error_retries
    temporary_error_wait_seconds :=
      pyIntOr temporary_error_wait_seconds defaults.temporary_error_wait_seconds }

/-- C10: passing `0` (or `None`) for any of the six falsy-checked
constructor arguments keeps the class-level default; in particular
`temporary_error_retries=0` on `BaseClient` produces a client whose
`temporary_error_retries` is the class default 1, so zero temporary-error
retries cannot be configured through that argument. -/
theorem c10_falsy_constructor_args_keep_defaults
    (defaults : ClientRetryAttrs) (a1 a2 a3 a4 a5 a6 : Option Int) :
    ((initBaseClient defaults (some 0) a2 a3 a4 a5 a6).debug_level =
       defaults.debug_level ∧
     (initBaseClient defaults none a2 a3 a4 a5 a6).debug_level =
       defaults.debug_level) ∧
    ((initBaseClient defaults a1 (some 0) a3 a4 a5 a6).request_wait_seconds =
       defaults.request_wait_seconds ∧
     (initBaseClient defaults a1 none a3 a4 a5 a6).request_wait_seconds =
       defaults.request_wait_seconds) ∧
    ((initBaseClient defaults a1 a2 (some 0) a4 a5 a6).ratelimit_retries =
       defaults.ratelimit_retries ∧
     (initBaseClient defaults a1 a2 none a4 a5 a6).ratelimit_retries =
       defaults.ratelimit_retries) ∧
    ((initBaseClient defaults a1 a2 a3 (some 0) a5 a6).ratelimit_wait_seconds =
       defaults.ratelimit_wait_seconds ∧
     (initBaseClient defaults a1 a2 a3 none a5 a6).ratelimit_wait_seconds =
       defaults.ratelimit_wait_seconds) ∧
    ((initBaseClient defaults a1 a2 a3 a4 (some 0) a6).temporary_error_retries =
       defaults.temporary_error_retries ∧
     (initBaseClient defaults a1 a2 a3 a4 none a6).temporary_error_retries =
       defaults.temporary_error_retries) ∧
    ((initBaseClient defaults a1 a2 a3 a4 a5 (some 0)).temporary_error_wait_seconds =
       defaults.temporary_error_wait_seconds ∧
     (initBaseClient defaults a1 a2 a3 a4 a5 none).temporary_error_wait_seconds =
       defaults.temporary_error_wait_seconds) ∧
    (initBaseClient baseClientDefaults a1 a2 a3 a4 (some 0) a6).temporary_error_retries
      = 1 :=
  ⟨⟨rfl, rfl⟩, ⟨rfl, rfl⟩, ⟨rfl, rfl⟩, ⟨rfl, rfl⟩, ⟨rfl, rfl⟩, ⟨rfl, rfl⟩, rfl⟩
